import Mathlib

/-!
Verification development for the clause-composition engine of the
mysql-contexts repository (src/src/builders.js and the join-chain part of
src/src/contexts.js), modelled as a shallow embedding.

The `WhereBuilder` state mirrors the private fields `_filter`, `_args` and
`_not` of the JS class.  A chain of condition-method calls is represented by
the mutually inductive types `Call`/`Calls`; `applyCalls` replays such a
chain against a builder state exactly as the JS methods do, including the
`_buildNest` mechanism (a fresh child builder primed with the dummy
condition `" WHERE _ = ?"`, whose rendered text is spliced in after the
first-occurrence replacement of that dummy, and whose argument list is
appended after the host value where the source does so).
-/

namespace MysqlContexts

/-- A scalar value handed to the builder (a JS string or number argument). -/
inductive Val where
  | s (v : String)
  | i (n : Int)
deriving DecidableEq, Repr

/-- Connector keyword chosen by a condition method: the default and the
`and`-prefixed variants use `" AND "`, the `or`-prefixed variants `" OR "`. -/
inductive Conn where
  | and
  | or
deriving DecidableEq, Repr

/-- The connector text used when the filter is already non-empty. -/
def Conn.render : Conn → String
  | .and => " AND "
  | .or => " OR "

/-- Comparison operator of the six value-comparison method families. -/
inductive CmpOp where
  | eq
  | ne
  | lt
  | le
  | gt
  | ge
deriving DecidableEq, Repr

/-- Fragment appended after the column name by each comparison family. -/
def CmpOp.render : CmpOp → String
  | .eq => " = ?"
  | .ne => " <> ?"
  | .lt => " < ?"
  | .le => " <= ?"
  | .gt => " > ?"
  | .ge => " >= ?"

/-- The four IN-style methods of the source: `isIn`, `isNotIn`, `andIn`,
`orIn`.  They differ in connector, negation, and (crucially) in whether the
guard `if (!colName || !vals || vals.length <= 0) return this;` is present:
`orIn` has no guard in the source. -/
inductive InVariant where
  | isIn
  | isNotIn
  | andIn
  | orIn
deriving DecidableEq, Repr

/-- Whether the variant renders `NOT IN`. -/
def InVariant.negated : InVariant → Bool
  | .isNotIn => true
  | _ => false

/-- Connector of the IN-style variant. -/
def InVariant.conn : InVariant → Conn
  | .orIn => .or
  | _ => .and

/-- The guard of the three guarded IN-style methods; `orIn` has none.
For a present (non-null) column the only falsy string is `""`. -/
def InVariant.guardFires : InVariant → String → List Val → Bool
  | .orIn, _, _ => false
  | _, col, vs => col == "" || vs.isEmpty

/-- The four null-check methods: `isNull`, `isNotNull`, `andIsNull`,
`orIsNull`. -/
inductive NullVariant where
  | isNull
  | isNotNull
  | andIsNull
  | orIsNull
deriving DecidableEq, Repr

/-- Fragment appended by the null-check variant. -/
def NullVariant.render : NullVariant → String
  | .isNotNull => " <> NULL"
  | _ => " = NULL"

/-- Connector of the null-check variant. -/
def NullVariant.conn : NullVariant → Conn
  | .orIsNull => .or
  | _ => .and

/-- State of a `WhereBuilder`: `_filter`, `_args`, `_not`. -/
structure WhereBuilder where
  filter : String
  args : List Val
  notFlag : Bool
deriving DecidableEq, Repr

/-- `new WhereBuilder()`. -/
def WhereBuilder.new : WhereBuilder := ⟨"", [], false⟩

/-- `toString()` returns `_filter`. -/
def WhereBuilder.toString (w : WhereBuilder) : String := w.filter

/-- `getArgs()` returns `_args`. -/
def WhereBuilder.getArgs (w : WhereBuilder) : List Val := w.args

/-- `reset()` sets `_filter = ""` and `_args = []`; it does not touch
`_not`. -/
def WhereBuilder.reset (w : WhereBuilder) : WhereBuilder :=
  { w with filter := "", args := [] }

/-- `Array.prototype.join(sep)` on a list of strings. -/
def joinStr (sep : String) : List String → String
  | [] => ""
  | [x] => x
  | x :: y :: xs => x ++ sep ++ joinStr sep (y :: xs)

/-- First-occurrence replacement on character lists, as performed by the JS
`String.prototype.replace` with a (non-empty) string pattern. -/
def replFirstAux (pat rep : List Char) : List Char → List Char
  | [] => []
  | c :: cs =>
    if pat.isPrefixOf (c :: cs) then rep ++ (c :: cs).drop pat.length
    else c :: replFirstAux pat rep cs

/-- `s.replace(pat, rep)` for a string pattern (first occurrence only). -/
def replaceFirst (s pat rep : String) : String :=
  ⟨replFirstAux pat.data rep.data s.data⟩

/-- The dummy condition that `_buildNest` plants in the child builder via
`builder.equals("_", 0)` and later strips with
`.replace(" WHERE _ = ?", "")`. -/
def nestPat : String := " WHERE _ = ?"

/-- The child builder handed to a nested callback: `_buildNest` creates a
fresh builder, runs `builder.equals("_", 0)` (filter `" WHERE _ = ?"`,
args `[0]`) and then `builder._args.shift()`, so when the callback runs the
child holds the dummy filter and an empty argument list. -/
def childInit : WhereBuilder := ⟨" WHERE _ = ?", [], false⟩

/-- Common body of every condition method once its guard has passed:
connector choice on `_filter.length > 0`, `_negate` consuming `_not`,
optional nesting parentheses around the fragment plus the child text with
the dummy stripped, and the argument-list update.  `vals` are the values the
method itself appends, `childArgs` the nested arguments it appends (the
null-check methods pass `[]` there because the source destructures only
`nest` out of `_buildNest` and never touches `builder._args`). -/
def appendCond (w : WhereBuilder) (conn : Conn) (base : String)
    (vals : List Val) (hasSub : Bool) (childFilter : String)
    (childArgs : List Val) : WhereBuilder :=
  let frag := if w.notFlag then "NOT (" ++ base ++ ")" else base
  let body :=
    if hasSub then "(" ++ frag ++ replaceFirst childFilter nestPat "" ++ ")"
    else frag
  { filter := w.filter ++ (if 0 < w.filter.length then conn.render else " WHERE ") ++ body,
    args := w.args ++ vals ++ childArgs,
    notFlag := false }

mutual
/-- One call of a condition method (or of `not`) on a `WhereBuilder`, with
the column and value arguments present (JS non-null).  `hasSub` records
whether the optional nested-callback parameter was supplied; the callback
itself is represented by the chain of calls it performs on the builder it
receives. -/
inductive Call where
  | cmp (conn : Conn) (op : CmpOp) (col : String) (v : Val)
      (hasSub : Bool) (sub : Calls)
  | inC (iv : InVariant) (col : String) (vs : List Val)
      (hasSub : Bool) (sub : Calls)
  | nullC (nv : NullVariant) (col : String) (hasSub : Bool) (sub : Calls)
  | notC (hasSub : Bool) (sub : Calls)

/-- A chain of calls, executed left to right. -/
inductive Calls where
  | nil
  | cons (c : Call) (cs : Calls)
end

mutual
/-- Replay one call against a builder state, mirroring the JS method
bodies. -/
def applyCall : Call → WhereBuilder → WhereBuilder
  | .cmp conn op col v hasSub sub, w =>
    let child := applyCalls sub childInit
    appendCond w conn (col ++ op.render) [v] hasSub child.filter
      (if hasSub then child.args else [])
  | .inC iv col vs hasSub sub, w =>
    if iv.guardFires col vs then w
    else
      let child := applyCalls sub childInit
      appendCond w iv.conn
        (col ++ (if iv.negated then " NOT IN (" else " IN (")
          ++ joinStr ", " (List.replicate vs.length "?") ++ ")")
        vs hasSub child.filter (if hasSub then child.args else [])
  | .nullC nv col hasSub sub, w =>
    if col == "" then w
    else
      let child := applyCalls sub childInit
      appendCond w nv.conn (col ++ nv.render) [] hasSub child.filter []
  | .notC hasSub sub, w =>
    if hasSub then applyCalls sub { w with notFlag := true }
    else { w with notFlag := true }

/-- Replay a chain of calls left to right. -/
def applyCalls : Calls → WhereBuilder → WhereBuilder
  | .nil, w => w
  | .cons c cs, w => applyCalls cs (applyCall c w)
end

/-! ### Condition methods called with absent arguments

The condition methods accept JS `null`/`undefined` in their column and value
positions; `AbsCall` models one such call with `Option`-typed arguments.
Its semantics `absApply` returns `Except`: `Except.error` models a thrown
exception.  The guards of the source are mirrored per method: the six
comparison families test `colName == null || val == null`; `isIn`,
`isNotIn` and `andIn` test `!colName || !vals || vals.length <= 0`; the
null checks test `!colName`; `orIn` has no guard at all, so with absent
`vals` it evaluates `vals.length` on `undefined` and throws a `TypeError`,
and with an absent column it stringifies it to `"undefined"` and appends a
condition. -/

/-- JS `String(x)` on a possibly-undefined string. -/
def jsString : Option String → String
  | none => "undefined"
  | some c => c

/-- One condition-method call whose column/value arguments may be absent
(`none` models JS `null`/`undefined`); the optional nested-callback
parameter is left unsupplied, as the guards return before it is used. -/
inductive AbsCall where
  | cmpA (conn : Conn) (op : CmpOp) (col : Option String) (v : Option Val)
  | inA (iv : InVariant) (col : Option String) (vs : Option (List Val))
  | nullA (nv : NullVariant) (col : Option String)
deriving DecidableEq, Repr

/-- Semantics of a call with possibly-absent arguments. -/
def absApply : AbsCall → WhereBuilder → Except String WhereBuilder
  | .cmpA conn op col v, w =>
    match col, v with
    | some c, some x => .ok (applyCall (.cmp conn op c x false .nil) w)
    | _, _ => .ok w
  | .inA .orIn col vs, w =>
    match vs with
    | none => .error "TypeError"
    | some l => .ok (applyCall (.inC .orIn (jsString col) l false .nil) w)
  | .inA iv col vs, w =>
    match col, vs with
    | some c, some l => .ok (applyCall (.inC iv c l false .nil) w)
    | _, _ => .ok w
  | .nullA nv col, w =>
    match col with
    | some c => .ok (applyCall (.nullC nv c false .nil) w)
    | none => .ok w

/-- Whether the call has an absent column argument or an absent required
value argument (the claim C5 quantifies over exactly these calls). -/
def AbsCall.missingArg : AbsCall → Prop
  | .cmpA _ _ col v => col = none ∨ v = none
  | .inA _ col vs => col = none ∨ vs = none
  | .nullA _ col => col = none

instance : DecidablePred AbsCall.missingArg := by
  intro c
  cases c <;> simp [AbsCall.missingArg] <;> infer_instance

/-! ### OrderBuilder

`by(tKey)` appends the column and then captures
`const idx = this._columns.length` — the length measured after the append,
i.e. one past the new element.  The `asc`/`desc` closures of the returned
chain object execute `this._columns[idx] += " ASC"/" DESC"`; with
`idx == length` this reads `undefined` and stores the string
`"undefined ASC"`/`"undefined DESC"` as a new element.  `toString()` always
prepends `" ORDER BY "`, also when no key was appended. -/

/-- State of an `OrderBuilder` together with the `idx` captured by the most
recent `by()` call (the chain object closes over it). -/
structure OrderBuilder where
  columns : List String
  lastIdx : Nat
deriving DecidableEq, Repr

/-- `new OrderBuilder()` (no chain object yet; `lastIdx` is only ever read
after a `by()` call, which overwrites it). -/
def OrderBuilder.new : OrderBuilder := ⟨[], 0⟩

/-- `by(tKey)`: append and capture `idx = this._columns.length` (after the
append). -/
def OrderBuilder.byKey (o : OrderBuilder) (col : String) : OrderBuilder :=
  ⟨o.columns ++ [col], (o.columns ++ [col]).length⟩

/-- `this._columns[idx] += sfx`: JS array index assignment, appending the
element `"undefined" ++ sfx` when `idx` is one past the end. -/
def OrderBuilder.dir (o : OrderBuilder) (sfx : String) : OrderBuilder :=
  if h : o.lastIdx < o.columns.length then
    ⟨o.columns.set o.lastIdx (o.columns.get ⟨o.lastIdx, h⟩ ++ sfx), o.lastIdx⟩
  else ⟨o.columns ++ ["undefined" ++ sfx], o.lastIdx⟩

/-- The `asc()` closure of the chain object. -/
def OrderBuilder.asc (o : OrderBuilder) : OrderBuilder := o.dir " ASC"

/-- The `desc()` closure of the chain object. -/
def OrderBuilder.desc (o : OrderBuilder) : OrderBuilder := o.dir " DESC"

/-- `toString()` of `OrderBuilder`. -/
def OrderBuilder.toString (o : OrderBuilder) : String :=
  " ORDER BY " ++ joinStr "," o.columns

/-! ### GroupBuilder (the version of src/src/builders.js) -/

/-- One GROUP BY key: the rendered expression and the optional alias. -/
structure GroupKey where
  key : String
  aliasName : Option String
deriving DecidableEq, Repr

/-- State of a `GroupBuilder`. -/
structure GroupBuilder where
  keys : List GroupKey
deriving DecidableEq, Repr

/-- `new GroupBuilder()`. -/
def GroupBuilder.new : GroupBuilder := ⟨[]⟩

/-- `by(tKey)`: plain key, no alias. -/
def GroupBuilder.byKey (g : GroupBuilder) (col : String) : GroupBuilder :=
  ⟨g.keys ++ [⟨col, none⟩]⟩

/-- `byDay(tKey)`. -/
def GroupBuilder.byDay (g : GroupBuilder) (col : String) : GroupBuilder :=
  ⟨g.keys ++ [⟨"CONCAT(YEAR(" ++ col ++ "), '/', DAY(" ++ col ++ "))", some "yearDay"⟩]⟩

/-- `byWeek(tKey)`. -/
def GroupBuilder.byWeek (g : GroupBuilder) (col : String) : GroupBuilder :=
  ⟨g.keys ++ [⟨"YEARWEEK(" ++ col ++ ")", some "yearWeek"⟩]⟩

/-- `byMonth(tKey)`. -/
def GroupBuilder.byMonth (g : GroupBuilder) (col : String) : GroupBuilder :=
  ⟨g.keys ++ [⟨"CONCAT(YEAR(" ++ col ++ "), '/', MONTH(" ++ col ++ "))", some "yearMonth"⟩]⟩

/-- `byYear(tKey)`. -/
def GroupBuilder.byYear (g : GroupBuilder) (col : String) : GroupBuilder :=
  ⟨g.keys ++ [⟨"YEAR(" ++ col ++ ")", some "year"⟩]⟩

/-- `toString()` of `GroupBuilder`: alias when present, else the key. -/
def GroupBuilder.toString (g : GroupBuilder) : String :=
  if 0 < g.keys.length then
    " GROUP BY " ++ joinStr "," (g.keys.map fun k => match k.aliasName with
      | some a => a
      | none => k.key)
  else ""

/-- `getSelects()` of `GroupBuilder`. -/
def GroupBuilder.getSelects (g : GroupBuilder) : String :=
  if g.keys.length ≤ 0 then "*"
  else "COUNT(*) as count," ++ joinStr "," (g.keys.map fun k =>
    k.key ++ (match k.aliasName with
      | some a => " AS " ++ a
      | none => ""))

/-! ### The join chain of MySqlJoinContext (src/src/contexts.js)

A plain `MySqlTableContext` carries `_table`, `_pKey` and the mutable
`_joinKey` field the join constructor stashes on it.  The
`MySqlJoinContext` constructor receives `(leftTable, rightTable, leftData,
rightData, joinType)`; it sets `leftTable._joinKey = leftData.key` and
`rightTable._joinKey = rightData.key`, flattens the table list of `leftTable`
when the left operand is itself a join context (in that case the
`leftData.key` lands on the join context object and never on a table in the
list), and then renders the chain by walking adjacent pairs of the table
list, using the stored `_joinKey` of each table on both sides of `ON` and the
`leftData.name`/`rightData.name` of the current constructor call (when
present) as the qualifier of every edge.  Finally `this._table` is set to
the table names joined with `"-join-"`, and this string is what
`get`/`getAll`/`count` interpolate after `FROM`; the rendered chain
`joinPart` itself is used only as the qualifier prefix inside
`this.columns`.  The loop picks `left.joinType` when a list entry is
itself a join context; chains built through `.join()` only ever hold plain
table contexts in the list, so the kind of every edge is the `joinType` of
the newest context, as modelled here. -/

/-- A plain table context: `_table`, `_pKey` and the stashed `_joinKey`. -/
structure TableCtx where
  table : String
  pKey : Option String
  joinKey : Option String
deriving DecidableEq, Repr

/-- `new MySqlTableContext(pool, table, aiKey)`: `_joinKey` starts
undefined. -/
def TableCtx.new (table : String) (pKey : Option String := none) : TableCtx :=
  ⟨table, pKey, none⟩

/-- The join metadata `{name?, key}` supplied per join call. -/
structure JoinMeta where
  name : Option String
  key : String
deriving DecidableEq, Repr

/-- The edges of the rendered chain: for each adjacent pair `(left, right)`
of the table list, ``` <joinType> JOIN <right> ON <leftQual>.<leftKey> =
<rightQual>.<rightKey>``` where the keys are `String(_joinKey)`
(`"undefined"` when unset) and the qualifiers come from the last
metadata of the last constructor call, falling back to the table names of the pair. -/
def renderEdges (jt : String) (lName rName : Option String) :
    TableCtx → List TableCtx → String
  | _, [] => ""
  | l, r :: rest =>
    " " ++ jt ++ " JOIN " ++ r.table ++ " ON "
      ++ (lName.getD l.table) ++ "." ++ jsString l.joinKey ++ " = "
      ++ (rName.getD r.table) ++ "." ++ jsString r.joinKey
      ++ renderEdges jt lName rName r rest

/-- The `joinPart` string built by the constructor loop (empty when the
list has fewer than two tables, exactly as the loop body never runs). -/
def renderChain (jt : String) (lName rName : Option String) :
    List TableCtx → String
  | [] => ""
  | [_] => ""
  | t :: u :: rest => t.table ++ renderEdges jt lName rName t (u :: rest)

/-- The composed join context: the flattened table list, the rendered
`joinPart`, the `_table` name (used by `FROM`), and `this.columns`. -/
structure JoinCtx where
  tables : List TableCtx
  joinPart : String
  table : String
  columns : List String
deriving DecidableEq, Repr

/-- `this.columns`: for every table the constructor pushes
`` `${tName}.${pKey} AS __${tName}_${pKey}__` `` and `` `${tName}.*` ``
where `tName` is the whole `joinPart` string and `pKey` is
`String(t._pKey)` (the string `"null"` when the context has no
auto-increment key; the `pKey != null` test compares that string and is
always true). -/
def mkColumns (joinPart : String) (tables : List TableCtx) : List String :=
  tables.flatMap fun t =>
    let pk := match t.pKey with
      | none => "null"
      | some k => k
    [joinPart ++ "." ++ pk ++ " AS __" ++ joinPart ++ "_" ++ pk ++ "__",
      joinPart ++ ".*"]

/-- Build the join context from an already-flattened table list (the body
of the constructor after the operands were merged). -/
def mkJoinCtx (jt : String) (lData rData : JoinMeta)
    (tables : List TableCtx) : JoinCtx :=
  let part := renderChain jt lData.name rData.name tables
  { tables := tables,
    joinPart := part,
    table := joinStr "-join-" (tables.map (·.table)),
    columns := mkColumns part tables }

/-- `leftTable.join(rightTable, leftData, rightData)` with two plain table
contexts: both stashed `_joinKey`s land on tables of the list. -/
def joinTwo (left right : TableCtx) (lData rData : JoinMeta)
    (jt : String := "INNER") : JoinCtx :=
  mkJoinCtx jt lData rData
    [{ left with joinKey := some lData.key },
      { right with joinKey := some rData.key }]

/-- `joinCtx.join(rightTable, leftData, rightData)` with a join context on
the left: `leftData.key` is stashed on the join context object itself, so
the tables inherited from it keep their previous `_joinKey`s; only the new
right table receives `rightData.key`. -/
def joinExtend (j : JoinCtx) (right : TableCtx) (lData rData : JoinMeta)
    (jt : String := "INNER") : JoinCtx :=
  mkJoinCtx jt lData rData
    (j.tables ++ [{ right with joinKey := some rData.key }])

/-! ### Query and mutation operations of MySqlJoinContext

Every mutation method of `MySqlJoinContext` consists of a single `throw`
executed before any interaction with the execution layer; the query methods
build their command string synchronously and only then hand it to the
external `_query`.  A record is a list of column/value pairs. -/

/-- A model record handed to insert/update. -/
def Record := List (String × Val)

/-- `insertOne` on a join context. -/
def joinInsertOne (_ : Record) : Except String Record :=
  .error "Cannot insert on joined tables."

/-- `insertMany` on a join context. -/
def joinInsertMany (_ : List Record) : Except String (List Record) :=
  .error "Cannot insert on joined tables."

/-- `update` on a join context. -/
def joinUpdate (_ : Record) (_ : WhereBuilder) : Except String Nat :=
  .error "Cannot update on joined tables."

/-- `updateAll` on a join context. -/
def joinUpdateAll (_ : Record) : Except String Nat :=
  .error "Cannot update on joined tables."

/-- `delete` on a join context. -/
def joinDelete (_ : WhereBuilder) : Except String Nat :=
  .error "Cannot delete on joined tables."

/-- `truncate` on a join context. -/
def joinTruncate : Except String Nat :=
  .error "Cannot truncate on joined tables."

/-- The SELECT list of the join `get`/`getAll`: the distinct list when
given, else `this.columns` when no GROUP BY is active, else the group
selects. -/
def joinSelects (j : JoinCtx) (g : GroupBuilder)
    (distinct : Option (List String)) : String :=
  match distinct with
  | some d => "DISTINCT " ++ joinStr "," d
  | none =>
    if g.getSelects = "*" then joinStr "," j.columns else g.getSelects

/-- The command string `getAll` on a join context builds before executing. -/
def joinGetAllCmd (j : JoinCtx) (w : WhereBuilder) (o : OrderBuilder)
    (g : GroupBuilder) (distinct : Option (List String)) : String :=
  "SELECT " ++ joinSelects j g distinct ++ " "
    ++ "FROM " ++ j.table ++ w.toString ++ o.toString ++ g.toString ++ " "

/-- The command string `get` on a join context builds before executing. -/
def joinGetCmd (j : JoinCtx) (lim off : Int) (w : WhereBuilder)
    (o : OrderBuilder) (g : GroupBuilder)
    (distinct : Option (List String)) : String :=
  "SELECT " ++ joinSelects j g distinct ++ " "
    ++ "FROM " ++ j.table ++ w.toString ++ o.toString ++ g.toString ++ " "
    ++ (if 0 < lim then "LIMIT " ++ Int.repr lim else "") ++ " "
    ++ (if 0 < off then "OFFSET " ++ Int.repr off else "")

/-- The command string the inherited `count` builds (`FROM` the `-join-`
name). -/
def joinCountCmd (j : JoinCtx) (w : WhereBuilder)
    (distinct : Option (List String)) : String :=
  "SELECT " ++ (match distinct with
    | some d => "COUNT(DISTINCT " ++ joinStr "," d ++ ") AS count"
    | none => "COUNT(*) AS count") ++ " FROM " ++ j.table ++ w.toString

/-- `getAll` on a join context: the build phase never fails. -/
def joinGetAll (j : JoinCtx) (w : WhereBuilder) (o : OrderBuilder)
    (g : GroupBuilder) (distinct : Option (List String)) :
    Except String String :=
  .ok (joinGetAllCmd j w o g distinct)

/-- `get` on a join context: the build phase never fails. -/
def joinGet (j : JoinCtx) (lim off : Int) (w : WhereBuilder)
    (o : OrderBuilder) (g : GroupBuilder)
    (distinct : Option (List String)) : Except String String :=
  .ok (joinGetCmd j lim off w o g distinct)

/-- `count` on a join context: the build phase never fails. -/
def joinCount (j : JoinCtx) (w : WhereBuilder)
    (distinct : Option (List String)) : Except String String :=
  .ok (joinCountCmd j w distinct)

/-! ### Supplied values and well-formedness of call chains -/

mutual
/-- The values supplied by a call, in the left-to-right order of the JS
source text: first the values of the node itself, then the values supplied inside
its nested callback. -/
def suppliedCall : Call → List Val
  | .cmp _ _ _ v hasSub sub => v :: (if hasSub then suppliedCalls sub else [])
  | .inC _ _ vs hasSub sub => vs ++ (if hasSub then suppliedCalls sub else [])
  | .nullC _ _ hasSub sub => if hasSub then suppliedCalls sub else []
  | .notC hasSub sub => if hasSub then suppliedCalls sub else []

/-- The values supplied by a chain of calls, left to right. -/
def suppliedCalls : Calls → List Val
  | .nil => []
  | .cons c cs => suppliedCall c ++ suppliedCalls cs
end

mutual
/-- Side condition of the amended claim C1: IN-style calls carry a
non-empty column and a non-empty value array (so they are not guard
no-ops), and null-check calls carry no nested callback (the source drops
the arguments such a callback supplies). -/
def c1okCall : Call → Bool
  | .cmp _ _ _ _ hasSub sub => !hasSub || c1okCalls sub
  | .inC _ col vs hasSub sub =>
    col != "" && !vs.isEmpty && (!hasSub || c1okCalls sub)
  | .nullC _ _ hasSub _ => !hasSub
  | .notC hasSub sub => !hasSub || c1okCalls sub

/-- `c1okCall` over a chain. -/
def c1okCalls : Calls → Bool
  | .nil => true
  | .cons c cs => c1okCall c && c1okCalls cs
end

/-- Number of `?` characters in a string. -/
def countQ (s : String) : Nat := s.data.countP (fun c => c == '?')

mutual
/-- Side condition of the amended claim C10: column names contain no `?`
character, IN-style calls carry a non-empty value array (the hypothesis of
the original claim), and null-check calls carry no nested callback. -/
def c10okCall : Call → Bool
  | .cmp _ _ col _ hasSub sub => countQ col == 0 && (!hasSub || c10okCalls sub)
  | .inC _ col vs hasSub sub =>
    countQ col == 0 && !vs.isEmpty && (!hasSub || c10okCalls sub)
  | .nullC _ col hasSub _ => countQ col == 0 && !hasSub
  | .notC hasSub sub => !hasSub || c10okCalls sub

/-- `c10okCall` over a chain. -/
def c10okCalls : Calls → Bool
  | .nil => true
  | .cons c cs => c10okCall c && c10okCalls cs
end

/-! ### Structural lemmas -/

theorem countQ_append (s t : String) : countQ (s ++ t) = countQ s + countQ t := by
  simp [countQ, String.data_append, List.countP_append]

@[simp] theorem countQ_empty : countQ "" = 0 := by decide

@[simp] theorem countQ_lparen : countQ "(" = 0 := by decide

@[simp] theorem countQ_rparen : countQ ")" = 0 := by decide

@[simp] theorem countQ_notOpen : countQ "NOT (" = 0 := by decide

@[simp] theorem countQ_whereKw : countQ " WHERE " = 0 := by decide

@[simp] theorem countQ_inOpen : countQ " IN (" = 0 := by decide

@[simp] theorem countQ_notInOpen : countQ " NOT IN (" = 0 := by decide

@[simp] theorem countQ_cmpOp (op : CmpOp) : countQ op.render = 1 := by
  cases op <;> decide

@[simp] theorem countQ_nullRender (nv : NullVariant) : countQ nv.render = 0 := by
  cases nv <;> decide

@[simp] theorem countQ_connRender (conn : Conn) : countQ conn.render = 0 := by
  cases conn <;> decide

theorem countQ_qmarks : ∀ n, countQ (joinStr ", " (List.replicate n "?")) = n
  | 0 => by decide
  | 1 => by decide
  | n + 2 => by
    have ih := countQ_qmarks (n + 1)
    have h2 : List.replicate (n + 1) "?" = "?" :: List.replicate n "?" := rfl
    have h1 : List.replicate (n + 2) "?" = "?" :: "?" :: List.replicate n "?" := rfl
    rw [h2] at ih
    rw [h1]
    simp only [joinStr, countQ_append] at ih ⊢
    have hq : countQ "?" = 1 := by decide
    have hcs : countQ ", " = 0 := by decide
    omega

theorem isPrefixOf_append_self (p r : List Char) :
    p.isPrefixOf (p ++ r) = true := by
  induction p with
  | nil => simp [List.isPrefixOf]
  | cons c p ih => simp [List.isPrefixOf, ih]

theorem replFirstAux_cancel (c : Char) (p r : List Char) :
    replFirstAux (c :: p) [] ((c :: p) ++ r) = r := by
  have h : (c :: p).isPrefixOf (c :: (p ++ r)) = true :=
    isPrefixOf_append_self (c :: p) r
  simp [replFirstAux, h, List.drop_left]

/-- Stripping the dummy ``" WHERE _ = ?"`` prefix that `_buildNest` plants:
the first-occurrence replacement removes exactly that prefix. -/
theorem replaceFirst_cancel (s : String) :
    replaceFirst (nestPat ++ s) nestPat "" = s := by
  show String.mk (replFirstAux nestPat.data [] ((nestPat ++ s).data)) = s
  rw [String.data_append]
  show String.mk (replFirstAux (' ' :: "WHERE _ = ?".data) []
    ((' ' :: "WHERE _ = ?".data) ++ s.data)) = s
  rw [replFirstAux_cancel]

/-- The filter and argument list produced by `appendCond`, abstractly: the
filter grows by a suffix whose `?`-count is the count of the base fragment
plus the count of the nested remainder, and the arguments grow by `vals ++ ca`. -/
theorem appendCond_spec (w : WhereBuilder) (conn : Conn) (base : String)
    (vals : List Val) (hasSub : Bool) (cf : String) (ca : List Val)
    (t : String) (hcf : hasSub = true → cf = nestPat ++ t) :
    ∃ u, (appendCond w conn base vals hasSub cf ca).filter = w.filter ++ u ∧
      countQ u = countQ base + (if hasSub then countQ t else 0) ∧
      (appendCond w conn base vals hasSub cf ca).args = w.args ++ (vals ++ ca) := by
  refine ⟨(if 0 < w.filter.length then conn.render else " WHERE ")
      ++ (if hasSub then
            "(" ++ (if w.notFlag then "NOT (" ++ base ++ ")" else base)
              ++ replaceFirst cf nestPat "" ++ ")"
          else (if w.notFlag then "NOT (" ++ base ++ ")" else base)), ?_, ?_, ?_⟩
  · simp [appendCond, String.append_assoc]
  · have hconn : countQ (if 0 < w.filter.length then conn.render else " WHERE ") = 0 := by
      split
      · simp
      · decide
    have hfrag : countQ (if w.notFlag then "NOT (" ++ base ++ ")" else base)
        = countQ base := by
      split <;> simp [countQ_append]
    cases hasSub with
    | false => simp [hconn, hfrag, countQ_append]
    | true =>
      rw [hcf rfl, replaceFirst_cancel]
      simp [countQ_append, hconn, hfrag]
  · simp [appendCond, List.append_assoc]

/-- Helper: the guard of an IN-style call never fires when the column and
value list are non-empty. -/
theorem guardFires_false (iv : InVariant) (col : String) (vs : List Val)
    (hcol : (col != "") = true) (hvs : vs.isEmpty = false) :
    iv.guardFires col vs = false := by
  cases iv <;> simp_all [InVariant.guardFires]

mutual
/-- The argument list after one call: the call appends exactly the values
it supplies (under the `c1okCall` side condition). -/
theorem args_applyCall (c : Call) (w : WhereBuilder) (h : c1okCall c = true) :
    (applyCall c w).args = w.args ++ suppliedCall c := by
  cases c with
  | cmp conn op col v hasSub sub =>
    cases hasSub with
    | false => simp [applyCall, appendCond, suppliedCall]
    | true =>
      have hsub : c1okCalls sub = true := by simpa [c1okCall] using h
      have ih : (applyCalls sub childInit).args = suppliedCalls sub := by
        rw [args_applyCalls sub childInit hsub]; rfl
      simp [applyCall, appendCond, suppliedCall, ih]
  | inC iv col vs hasSub sub =>
    simp only [c1okCall, Bool.and_eq_true] at h
    have hguard : iv.guardFires col vs = false :=
      guardFires_false iv col vs h.1.1 (by simpa using h.1.2)
    cases hasSub with
    | false => simp [applyCall, appendCond, suppliedCall, hguard]
    | true =>
      have hsub : c1okCalls sub = true := by simpa using h.2
      have ih : (applyCalls sub childInit).args = suppliedCalls sub := by
        rw [args_applyCalls sub childInit hsub]; rfl
      simp [applyCall, appendCond, suppliedCall, hguard, ih, List.append_assoc]
  | nullC nv col hasSub sub =>
    have hsb : hasSub = false := by simpa [c1okCall] using h
    subst hsb
    cases hcol : col == "" with
    | true => simp [applyCall, suppliedCall, hcol]
    | false => simp [applyCall, appendCond, suppliedCall, hcol]
  | notC hasSub sub =>
    cases hasSub with
    | false => simp [applyCall, suppliedCall]
    | true =>
      have hsub : c1okCalls sub = true := by simpa [c1okCall] using h
      have ih := args_applyCalls sub { w with notFlag := true } hsub
      simp [applyCall, suppliedCall, ih]

/-- The argument list after a chain of calls: the chain appends exactly the
values supplied, left to right. -/
theorem args_applyCalls (cs : Calls) (w : WhereBuilder)
    (h : c1okCalls cs = true) :
    (applyCalls cs w).args = w.args ++ suppliedCalls cs := by
  cases cs with
  | nil => simp [applyCalls, suppliedCalls]
  | cons c cs =>
    simp only [c1okCalls, Bool.and_eq_true] at h
    have ih1 := args_applyCall c w h.1
    have ih2 := args_applyCalls cs (applyCall c w) h.2
    simp [applyCalls, suppliedCalls, ih2, ih1, List.append_assoc]
end

mutual
/-- One call appends a filter suffix and an argument suffix that agree in
the placeholder sense: the suffix contains exactly as many `?` characters
as arguments were appended (under the `c10okCall` side condition). -/
theorem count_applyCall (c : Call) (w : WhereBuilder)
    (h : c10okCall c = true) :
    ∃ t a, (applyCall c w).filter = w.filter ++ t ∧
      (applyCall c w).args = w.args ++ a ∧ countQ t = a.length := by
  cases c with
  | cmp conn op col v hasSub sub =>
    simp only [c10okCall, Bool.and_eq_true] at h
    have hcol : countQ col = 0 := by simpa using h.1
    cases hasSub with
    | false =>
      obtain ⟨u, hu, hcu, hau⟩ := appendCond_spec w conn (col ++ op.render)
        [v] false (applyCalls sub childInit).filter [] ""
        (fun hh => by cases hh)
      refine ⟨u, [v], ?_, ?_, ?_⟩
      · simpa [applyCall] using hu
      · simpa [applyCall] using hau
      · simp [hcu, countQ_append, hcol]
    | true =>
      have hsub : c10okCalls sub = true := by simpa using h.2
      obtain ⟨t, a, hf, ha, hc⟩ := count_applyCalls sub childInit hsub
      obtain ⟨u, hu, hcu, hau⟩ := appendCond_spec w conn (col ++ op.render)
        [v] true (applyCalls sub childInit).filter
        (applyCalls sub childInit).args t (fun _ => hf)
      refine ⟨u, [v] ++ (applyCalls sub childInit).args, ?_, ?_, ?_⟩
      · simpa [applyCall] using hu
      · simpa [applyCall] using hau
      · have ha' : (applyCalls sub childInit).args = a := by
          simpa [childInit] using ha
        simp [hcu, countQ_append, hcol, hc, ha']
        omega
  | inC iv col vs hasSub sub =>
    simp only [c10okCall, Bool.and_eq_true] at h
    have hcol : countQ col = 0 := by simpa using h.1.1
    cases hg : iv.guardFires col vs with
    | true =>
      refine ⟨"", [], ?_, ?_, rfl⟩ <;> simp [applyCall, hg]
    | false =>
      have hbase : countQ (col ++ (if iv.negated then " NOT IN (" else " IN (")
          ++ joinStr ", " (List.replicate vs.length "?") ++ ")") = vs.length := by
        simp only [countQ_append, hcol, countQ_qmarks, countQ_rparen]
        split <;> simp
      cases hasSub with
      | false =>
        obtain ⟨u, hu, hcu, hau⟩ := appendCond_spec w iv.conn
          (col ++ (if iv.negated then " NOT IN (" else " IN (")
            ++ joinStr ", " (List.replicate vs.length "?") ++ ")")
          vs false (applyCalls sub childInit).filter [] ""
          (fun hh => by cases hh)
        refine ⟨u, vs, ?_, ?_, ?_⟩
        · simpa [applyCall, hg] using hu
        · simpa [applyCall, hg] using hau
        · simp [hcu, hbase]
      | true =>
        have hsub : c10okCalls sub = true := by simpa using h.2
        obtain ⟨t, a, hf, ha, hc⟩ := count_applyCalls sub childInit hsub
        obtain ⟨u, hu, hcu, hau⟩ := appendCond_spec w iv.conn
          (col ++ (if iv.negated then " NOT IN (" else " IN (")
            ++ joinStr ", " (List.replicate vs.length "?") ++ ")")
          vs true (applyCalls sub childInit).filter
          (applyCalls sub childInit).args t (fun _ => hf)
        refine ⟨u, vs ++ (applyCalls sub childInit).args, ?_, ?_, ?_⟩
        · simpa [applyCall, hg] using hu
        · simpa [applyCall, hg] using hau
        · have ha' : (applyCalls sub childInit).args = a := by
            simpa [childInit] using ha
          simp [hcu, hbase, hc, ha']
  | nullC nv col hasSub sub =>
    simp only [c10okCall, Bool.and_eq_true] at h
    have hcol : countQ col = 0 := by simpa using h.1
    have hsb : hasSub = false := by simpa using h.2
    subst hsb
    cases hc : col == "" with
    | true => exact ⟨"", [], by simp [applyCall, hc], by simp [applyCall, hc], rfl⟩
    | false =>
      obtain ⟨u, hu, hcu, hau⟩ := appendCond_spec w nv.conn (col ++ nv.render)
        [] false (applyCalls sub childInit).filter []
        "" (fun hh => by cases hh)
      refine ⟨u, [], ?_, ?_, ?_⟩
      · simpa [applyCall, hc] using hu
      · simpa [applyCall, hc] using hau
      · simp [hcu, countQ_append, hcol]
  | notC hasSub sub =>
    cases hasSub with
    | false =>
      exact ⟨"", [], by simp [applyCall], by simp [applyCall], rfl⟩
    | true =>
      have hsub : c10okCalls sub = true := by simpa [c10okCall] using h
      obtain ⟨t, a, hf, ha, hc⟩ :=
        count_applyCalls sub { w with notFlag := true } hsub
      exact ⟨t, a, by simpa [applyCall] using hf,
        by simpa [applyCall] using ha, hc⟩

/-- A chain of calls appends a filter suffix and an argument suffix with
matching placeholder counts. -/
theorem count_applyCalls (cs : Calls) (w : WhereBuilder)
    (h : c10okCalls cs = true) :
    ∃ t a, (applyCalls cs w).filter = w.filter ++ t ∧
      (applyCalls cs w).args = w.args ++ a ∧ countQ t = a.length := by
  cases cs with
  | nil => exact ⟨"", [], by simp [applyCalls], by simp [applyCalls], rfl⟩
  | cons c cs =>
    simp only [c10okCalls, Bool.and_eq_true] at h
    obtain ⟨t1, a1, hf1, ha1, hc1⟩ := count_applyCall c w h.1
    obtain ⟨t2, a2, hf2, ha2, hc2⟩ := count_applyCalls cs (applyCall c w) h.2
    refine ⟨t1 ++ t2, a1 ++ a2, ?_, ?_, ?_⟩
    · simp [applyCalls, hf2, hf1, String.append_assoc]
    · simp [applyCalls, ha2, ha1, List.append_assoc]
    · simp [countQ_append, hc1, hc2]
end

/-! ### Concrete programs used by the claims -/

/-- Scenario 3 of the specification:
`not(w => w.equals("FirstName","Frank").andEquals("LastName","Harris"))`. -/
def scenario3 : Calls :=
  .cons (.notC true
    (.cons (.cmp .and .eq "FirstName" (.s "Frank") false .nil)
      (.cons (.cmp .and .eq "LastName" (.s "Harris") false .nil) .nil))) .nil

/-- Scenario 4 of the specification:
`equals("FirstName","Frank")
  .andEquals("LastName","Harris", w => w.orEquals("CustomerId",16))`. -/
def scenario4 : Calls :=
  .cons (.cmp .and .eq "FirstName" (.s "Frank") false .nil)
    (.cons (.cmp .and .eq "LastName" (.s "Harris") true
      (.cons (.cmp .or .eq "CustomerId" (.i 16) false .nil) .nil)) .nil)

/-- `isNull("a", w => w.equals("b", 5))`: a null-check call with a nested
callback that supplies a value. -/
def cexC1 : Calls :=
  .cons (.nullC .isNull "a" true
    (.cons (.cmp .and .eq "b" (.i 5) false .nil) .nil)) .nil

/-- The same program as `cexC1`, used against claim C10. -/
def cexC10 : Calls :=
  .cons (.nullC .isNull "a" true
    (.cons (.cmp .and .eq "b" (.i 5) false .nil) .nil)) .nil

/-- A single pending `not()` call with no nested callback. -/
def pendingNot : Calls := .cons (.notC false .nil) .nil

/-- The three-table chinook chain of Scenario 5:
`artistCtx.join(albumCtx, {key:"ArtistId"}, {key:"ArtistId"})
          .join(trackCtx, {key:"AlbumId"}, {key:"AlbumId"})` with default
INNER kind. -/
def chinookChain : JoinCtx :=
  joinExtend
    (joinTwo (TableCtx.new "Artist") (TableCtx.new "Album")
      ⟨none, "ArtistId"⟩ ⟨none, "ArtistId"⟩)
    (TableCtx.new "Track") ⟨none, "AlbumId"⟩ ⟨none, "AlbumId"⟩

/-! ### Claim theorems -/

/-- C1, counterexample: the claim quantifies over all condition methods,
but a null-check condition call given a nested callback drops the values
supplied inside the callback from the argument list while still rendering
their placeholders, so `getArgs()` does not equal the left-to-right order
of supplied values. -/
theorem c1_counterexample :
    (applyCalls cexC1 WhereBuilder.new).getArgs = [] ∧
    suppliedCalls cexC1 = [Val.i 5] ∧
    (applyCalls cexC1 WhereBuilder.new).getArgs ≠ suppliedCalls cexC1 ∧
    (applyCalls cexC1 WhereBuilder.new).toString
      = " WHERE (a = NULL AND b = ?)" := by
  refine ⟨by decide, by decide, by decide, by decide⟩

/-- C1 (amended): for every sequence of condition calls in which IN-style
calls carry a non-empty column and non-empty value array and null-check
calls carry no nested callback, the list returned by `getArgs()` equals
the left-to-right order in which values were supplied over the whole tree,
with values produced inside a nested callback appended immediately after
the value(s) of the host node. -/
theorem c1_args_order (cs : Calls) (h : c1okCalls cs = true) :
    (applyCalls cs WhereBuilder.new).getArgs = suppliedCalls cs := by
  have := args_applyCalls cs WhereBuilder.new h
  simpa [WhereBuilder.getArgs, WhereBuilder.new] using this

/-- C1 witness: the amended theorem applied to the Scenario 4 program. -/
theorem c1_args_order_witness :
    c1okCalls scenario4 = true ∧
    (applyCalls scenario4 WhereBuilder.new).getArgs = suppliedCalls scenario4 :=
  ⟨by decide, c1_args_order scenario4 (by decide)⟩

/-- C2, counterexample: the chain built by joining Artist to Album on
ArtistId and then Track on AlbumId does not render the claimed FROM text —
the second edge uses the stale join key ArtistId stored on Album by the
first join, not the AlbumId key of the second join call. -/
theorem c2_counterexample :
    chinookChain.joinPart
      ≠ "Artist INNER JOIN Album ON Artist.ArtistId = Album.ArtistId INNER JOIN Track ON Album.AlbumId = Track.AlbumId" := by
  decide

/-- C2 (amended): the chain renders each edge anchored to the immediately
preceding table, but the ON keys are the per-table stored join keys, so
the second edge reads `Album.ArtistId = Track.AlbumId`; moreover the
`_table` name interpolated after `FROM` by the query methods is the
`-join-` concatenation, not the rendered chain. -/
theorem c2_join_chain :
    chinookChain.joinPart
      = "Artist INNER JOIN Album ON Artist.ArtistId = Album.ArtistId INNER JOIN Track ON Album.ArtistId = Track.AlbumId" ∧
    chinookChain.table = "Artist-join-Album-join-Track" := by
  refine ⟨by decide, by decide⟩

/-- C3, counterexample: Scenario 3 does not compile to
`WHERE NOT (FirstName = ? AND LastName = ?)` (with or without the leading
space the source keeps on the clause): the negation wraps only the first
condition added inside the callback. -/
theorem c3_counterexample :
    (applyCalls scenario3 WhereBuilder.new).toString
      ≠ "WHERE NOT (FirstName = ? AND LastName = ?)" ∧
    (applyCalls scenario3 WhereBuilder.new).toString
      ≠ " WHERE NOT (FirstName = ? AND LastName = ?)" := by
  refine ⟨by decide, by decide⟩

/-- C3 (amended): `not(cb)` invokes `cb` against the same builder after
setting the negation flag, so only the next condition added inside `cb` is
negated: Scenario 3 compiles to `" WHERE NOT (FirstName = ?) AND
LastName = ?"` with arguments `["Frank","Harris"]`. -/
theorem c3_not_next_condition :
    (applyCalls scenario3 WhereBuilder.new).toString
      = " WHERE NOT (FirstName = ?) AND LastName = ?" ∧
    (applyCalls scenario3 WhereBuilder.new).getArgs
      = [Val.s "Frank", Val.s "Harris"] := by
  refine ⟨by decide, by decide⟩

/-- C4, counterexample: `byDay` appends the alias `yearDay`, not
`$yearDay`, and the projected column list of the GroupBuilder in
src/src/builders.js contains no `$` character at all — its row-count
column is `COUNT(*) as count`. -/
theorem c4_counterexample :
    (GroupBuilder.new.byDay "HireDate").keys.map (·.aliasName)
      = [some "yearDay"] ∧
    ((GroupBuilder.new.byDay "HireDate").getSelects).data.contains '$' = false ∧
    (GroupBuilder.new.byDay "HireDate").getSelects
      = "COUNT(*) as count,CONCAT(YEAR(HireDate), '/', DAY(HireDate)) AS yearDay" := by
  refine ⟨by decide, by decide, by decide⟩

/-- C4 (amended): `byDay`, `byWeek`, `byMonth` and `byYear` append keys
aliased `yearDay`, `yearWeek`, `yearMonth` and `year` (no `$` prefix), and
whenever at least one group key exists the projected column list begins
with the row-count column `COUNT(*) as count,` followed by the key
expressions. -/
theorem c4_group_aliases (g : GroupBuilder) (col : String)
    (h : g.keys ≠ []) :
    (g.byDay col).keys.map (·.aliasName)
      = g.keys.map (·.aliasName) ++ [some "yearDay"] ∧
    (g.byWeek col).keys.map (·.aliasName)
      = g.keys.map (·.aliasName) ++ [some "yearWeek"] ∧
    (g.byMonth col).keys.map (·.aliasName)
      = g.keys.map (·.aliasName) ++ [some "yearMonth"] ∧
    (g.byYear col).keys.map (·.aliasName)
      = g.keys.map (·.aliasName) ++ [some "year"] ∧
    ∃ rest, g.getSelects = "COUNT(*) as count," ++ rest := by
  refine ⟨by simp [GroupBuilder.byDay], by simp [GroupBuilder.byWeek],
    by simp [GroupBuilder.byMonth], by simp [GroupBuilder.byYear], ?_⟩
  have hlen : ¬ g.keys.length ≤ 0 := by
    simpa [List.length_eq_zero] using h
  exact ⟨joinStr "," (g.keys.map fun k =>
      k.key ++ (match k.aliasName with
        | some a => " AS " ++ a
        | none => "")),
    by simp [GroupBuilder.getSelects, hlen]⟩

/-- C4 witness: the amended theorem applied to a builder holding the key
`Country`. -/
theorem c4_group_aliases_witness :
    (GroupBuilder.new.byKey "Country").keys ≠ [] ∧
    ∃ rest, (GroupBuilder.new.byKey "Country").getSelects
      = "COUNT(*) as count," ++ rest :=
  ⟨by decide, (c4_group_aliases (GroupBuilder.new.byKey "Country") "HireDate"
    (by decide)).2.2.2.2⟩

/-- C5 (code bug): `orIn` lacks the guard every sibling condition method
has, so with an absent value array it throws a TypeError instead of
returning the builder unchanged, and with an absent column but present
values it appends `undefined IN (...)` instead of no-oping; a comparison
method with an absent value, by contrast, is the documented no-op. -/
theorem c5_orin_unguarded :
    absApply (.inA .orIn (some "CustomerId") none) WhereBuilder.new
      = Except.error "TypeError" ∧
    absApply (.inA .orIn none (some [Val.i 1])) WhereBuilder.new
      = Except.ok ⟨" WHERE undefined IN (?)", [Val.i 1], false⟩ ∧
    (⟨" WHERE undefined IN (?)", [Val.i 1], false⟩ : WhereBuilder)
      ≠ WhereBuilder.new ∧
    absApply (.cmpA .and .eq (some "CustomerId") none) WhereBuilder.new
      = Except.ok WhereBuilder.new :=
  ⟨rfl, rfl, by decide, rfl⟩

/-- C6 (code bug): `by("A").desc().by("B")` renders
`" ORDER BY A,undefined DESC,B"` — the captured index is one past the key
just appended, so the direction lands on a fresh `undefined` slot — and an
OrderBuilder with zero `by()` calls renders `" ORDER BY "`, not the empty
string. -/
theorem c6_order_misindexed :
    (((OrderBuilder.new.byKey "A").desc).byKey "B").toString
      = " ORDER BY A,undefined DESC,B" ∧
    OrderBuilder.new.toString = " ORDER BY " ∧
    (((OrderBuilder.new.byKey "A").desc).byKey "B").toString
      ≠ " ORDER BY A DESC,B" ∧
    OrderBuilder.new.toString ≠ "" := by
  refine ⟨by decide, by decide, by decide, by decide⟩

/-- C7: Scenario 4 — a condition call given a nested callback renders its
own fragment followed by the nested tree, the whole combination
parenthesized, and the nested argument follows the value of the host node:
the compiled text is `" WHERE FirstName = ? AND (LastName = ? OR
CustomerId = ?)"` with arguments `["Frank","Harris",16]`. -/
theorem c7_nested_group :
    (applyCalls scenario4 WhereBuilder.new).toString
      = " WHERE FirstName = ? AND (LastName = ? OR CustomerId = ?)" ∧
    (applyCalls scenario4 WhereBuilder.new).getArgs
      = [Val.s "Frank", Val.s "Harris", Val.i 16] := by
  refine ⟨by decide, by decide⟩

/-- C8, counterexample: `reset()` does not clear the pending negation
flag, so after `not()` followed by `reset()` the builder is not
observationally equal to a fresh builder — the next condition still
renders negated. -/
theorem c8_counterexample :
    (applyCall (.cmp .and .eq "FirstName" (.s "Frank") false .nil)
      ((applyCalls pendingNot WhereBuilder.new).reset)).toString
      = " WHERE NOT (FirstName = ?)" ∧
    (applyCall (.cmp .and .eq "FirstName" (.s "Frank") false .nil)
      WhereBuilder.new).toString = " WHERE FirstName = ?" ∧
    (applyCalls pendingNot WhereBuilder.new).reset ≠ WhereBuilder.new := by
  refine ⟨by decide, by decide, by decide⟩

/-- C8 (amended): after any sequence of prior calls, `reset()` empties the
clause text and the argument list, but it preserves the negation flag
rather than clearing all state. -/
theorem c8_reset_clears_filter_and_args (cs : Calls) :
    ((applyCalls cs WhereBuilder.new).reset).toString = "" ∧
    ((applyCalls cs WhereBuilder.new).reset).getArgs = [] ∧
    ((applyCalls cs WhereBuilder.new).reset).notFlag
      = (applyCalls cs WhereBuilder.new).notFlag :=
  ⟨rfl, rfl, rfl⟩

/-- C9: every mutation operation of the join context returns its refusal
error immediately, with no dependence on the execution layer, while the
query operations `get`, `getAll` and `count` of the same context always
reach the execution phase with a successfully built command. -/
theorem c9_join_mutations_refused (rec : Record) (recs : List Record)
    (j : JoinCtx) (lim off : Int) (w : WhereBuilder) (o : OrderBuilder)
    (g : GroupBuilder) (d : Option (List String)) :
    joinInsertOne rec = .error "Cannot insert on joined tables." ∧
    joinInsertMany recs = .error "Cannot insert on joined tables." ∧
    joinUpdate rec w = .error "Cannot update on joined tables." ∧
    joinUpdateAll rec = .error "Cannot update on joined tables." ∧
    joinDelete w = .error "Cannot delete on joined tables." ∧
    joinTruncate = .error "Cannot truncate on joined tables." ∧
    (∃ cmd, joinGet j lim off w o g d = .ok cmd) ∧
    (∃ cmd, joinGetAll j w o g d = .ok cmd) ∧
    (∃ cmd, joinCount j w d = .ok cmd) :=
  ⟨rfl, rfl, rfl, rfl, rfl, rfl, ⟨_, rfl⟩, ⟨_, rfl⟩, ⟨_, rfl⟩⟩

/-- C10, counterexample: a null-check call given a nested callback renders
the placeholder of the nested condition but drops its argument, so the
compiled text holds one `?` while `getArgs()` is empty. -/
theorem c10_counterexample :
    countQ (applyCalls cexC10 WhereBuilder.new).toString = 1 ∧
    (applyCalls cexC10 WhereBuilder.new).getArgs.length = 0 ∧
    (applyCalls cexC10 WhereBuilder.new).toString
      = " WHERE (a = NULL AND b = ?)" := by
  refine ⟨by decide, by decide, by decide⟩

/-- C10 (amended): for every sequence of condition calls whose column
names contain no `?`, whose IN-style calls carry a non-empty value array
(the hypothesis of the original claim), and whose null-check calls carry
no nested callback, the number of `?` placeholders in `toString()` equals
the length of `getArgs()`; in particular null-check calls without
callbacks add clause text but leave the argument list unchanged. -/
theorem c10_placeholder_count (cs : Calls) (h : c10okCalls cs = true) :
    countQ (applyCalls cs WhereBuilder.new).toString
      = (applyCalls cs WhereBuilder.new).getArgs.length := by
  obtain ⟨t, a, hf, ha, hc⟩ := count_applyCalls cs WhereBuilder.new h
  have hf' : (applyCalls cs WhereBuilder.new).toString = "" ++ t := hf
  have ha' : (applyCalls cs WhereBuilder.new).getArgs = [] ++ a := ha
  simp [hf', ha', hc, countQ_append]

/-- C10 witness: the amended theorem applied to the Scenario 4 program. -/
theorem c10_placeholder_count_witness :
    c10okCalls scenario4 = true ∧
    countQ (applyCalls scenario4 WhereBuilder.new).toString
      = (applyCalls scenario4 WhereBuilder.new).getArgs.length :=
  ⟨by decide, c10_placeholder_count scenario4 (by decide)⟩

end MysqlContexts
